import Mathlib

/-!
Shallow embedding of the WenXingming/ThreadPool repository (final iteration:
`src/src/Task.h`, `src/src/ThreadPool.cpp`, `src/src/ThreadPool.h`).

Tasks carry a C++ `int` priority (modelled as `Int`, with `INT_MIN` the
sentinel), a steady-clock timestamp (modelled as `Nat`), and a type-erased
callable body (modelled as `Option Nat`: `none` is the null `std::function`,
`some i` identifies the `packaged_task` created at submission `i`; invoking
the body resolves the caller's future).

Every mutex-protected critical section of the pool is modelled as one atomic
step of a transition system; the condition-variable wait outcomes (`wait_for`
returning with the predicate satisfied, or timing out with it false) are
scheduler choices constrained by the predicate the source passes to
`wait_for`.
-/

namespace Wxm

/-- `INT_MIN` from `<climits>` on the 32-bit `int` used for `Task::priority_`. -/
def INT_MIN : Int := -2147483648

/-- `wxm::Task` from `src/src/Task.h`: priority, steady-clock timestamp,
and the `std::function<void()>` body (`none` = `nullptr`). -/
structure Task where
  priority : Int
  timestamp : Nat
  body : Option Nat
deriving DecidableEq

/-- `Task::Task()` from `src/src/Task.h` lines 23-27: sentinel priority
`INT_MIN`, null body, timestamp taken at construction time. -/
def Task.defaultAt (now : Nat) : Task :=
  ⟨INT_MIN, now, none⟩

/-- `Task::operator<` from `src/src/Task.h` lines 38-45: compare by priority;
on equal priority return `!(timestamp_ < other.timestamp_)`. -/
def Task.lt (a b : Task) : Bool :=
  if a.priority ≠ b.priority then
    decide (a.priority < b.priority)
  else
    ! decide (a.timestamp < b.timestamp)

/-- `Task::operator<` from the older `src/src/ThreadPool.h` lines 47-54:
compare by priority; on equal priority return `timestamp > other.timestamp`. -/
def Task.ltHdr (a b : Task) : Bool :=
  if a.priority ≠ b.priority then
    decide (a.priority < b.priority)
  else
    decide (b.timestamp < a.timestamp)

/-- The exception thrown by `Task::run` when `function_` is null. -/
inductive RunError where
  | emptyFunction
deriving DecidableEq

/-- `Task::run()` from `src/src/Task.h` lines 47-56: invoke `function_` when
non-null (resolving the future of the body), otherwise throw. -/
def Task.run (t : Task) : Except RunError Nat :=
  match t.body with
  | some f => Except.ok f
  | none => Except.error RunError.emptyFunction

/-- State of one `wxm::ThreadPool` instance: the members of
`src/src/ThreadPool.cpp` that the claims mention, plus two ghost logs
(`dequeueLog`: tasks removed from `tasks_` by a worker; `execLog`: tasks on
which the worker invoked `run()`), and `nextId`, the identity of the next
`packaged_task` a submission will create. -/
structure PoolState where
  tasks : List Task
  stopFlag : Bool
  maxTasksSize : Nat
  openAutoExpandReduce : Bool
  nextId : Nat
  dequeueLog : List Task
  execLog : List Task
deriving DecidableEq

/-- Observable side effects of one critical section. -/
structure Obs where
  exitLoop : Bool
  calledReduce : Bool
  calledExpand : Bool
  notifiedNotFull : Bool
  submitError : Bool
  ranTask : Option Task
deriving DecidableEq

/-- No observable effect. -/
def Obs.quiet : Obs :=
  ⟨false, false, false, false, false, none⟩

/-- `tasks_.push(Task(func, priority))`: a submission constructs a fresh
`packaged_task` (identity `nextId`) and pushes the wrapping `Task`. -/
def pushTask (s : PoolState) (priority : Int) (now : Nat) : PoolState :=
  { s with tasks := Task.mk priority now (some s.nextId) :: s.tasks,
           nextId := s.nextId + 1 }

/-- `std::priority_queue<Task>::top()`/`pop()`: remove a maximal element
under `Task.lt` (`operator<`). -/
def popMax : List Task → Option (Task × List Task)
  | [] => none
  | t :: ts =>
    match popMax ts with
    | none => some (t, [])
    | some (m, rest) => if Task.lt t m then some (m, t :: rest) else some (t, ts)

/-- Predicate passed to `wait_for` in `ThreadPool::wait_not_empty_or_stop`
(`src/src/ThreadPool.cpp` lines 154-164). -/
def wait_not_empty_or_stop (s : PoolState) : Bool :=
  s.stopFlag || ! decide (s.tasks = [])

/-- Predicate passed to `wait_for` in `ThreadPool::wait_not_full_or_stop`
(`src/src/ThreadPool.cpp` lines 167-177), also the predicate of the
`conditionSubmit.wait_for` in `ThreadPool::submit_task`
(`src/src/ThreadPool.h` lines 138-141). -/
def wait_not_full_or_stop (s : PoolState) : Bool :=
  s.stopFlag || decide (s.tasks.length < s.maxTasksSize)

/-- Critical section of `ThreadPool::submit_task` (`src/src/ThreadPool.h`
lines 136-161 and, with an explicit priority, lines 178-203). `timedOut` is
the scheduler's choice of `wait_for` outcome: `false` means `retWait = true`
(predicate satisfied, only possible when `wait_not_full_or_stop` holds),
`true` means the wait timed out with the predicate still false. Returns
`none` when that outcome is impossible in state `s`. On `retWait = true` the
code pushes when `tasks.size() < maxTasksSize` and otherwise throws
runtime_error; on timeout it pushes unconditionally and then calls
`expand_thread_pool()` if `openAutoExpandReduce`. -/
def submit_task (s : PoolState) (priority : Int) (timedOut : Bool) (now : Nat) :
    Option (PoolState × Obs) :=
  if timedOut then
    if wait_not_full_or_stop s = false then
      some (pushTask s priority now,
            { Obs.quiet with calledExpand := s.openAutoExpandReduce })
    else none
  else
    if wait_not_full_or_stop s = true then
      if s.tasks.length < s.maxTasksSize then
        some (pushTask s priority now, Obs.quiet)
      else
        some ({ s with nextId := s.nextId + 1 },
              { Obs.quiet with submitError := true })
    else none

/-- One iteration of the worker loop `ThreadPool::process_task`
(`src/src/ThreadPool.cpp` lines 74-102). `ready` is the value returned by
`wait_not_empty_or_stop`: `true` means the predicate held (stop or
non-empty), `false` means timeout with the queue still empty and stop unset.
On `ready = false` the worker unlocks, calls `reduce_thread_pool` when
`openAutoExpandReduce_`, and `break`s out of the loop. On `ready = true` it
pops the top task if the queue is non-empty (else `return`s), and when the
popped priority is not `INT_MIN` it notifies `notFull_` and calls
`task.run()`. -/
def process_task_step (s : PoolState) (ready : Bool) : Option (PoolState × Obs) :=
  if ready then
    if wait_not_empty_or_stop s = true then
      match popMax s.tasks with
      | none => some (s, { Obs.quiet with exitLoop := true })
      | some (t, rest) =>
        if t.priority ≠ INT_MIN then
          some ({ s with tasks := rest,
                         dequeueLog := s.dequeueLog ++ [t],
                         execLog := s.execLog ++ [t] },
                { Obs.quiet with notifiedNotFull := true, ranTask := some t })
        else
          some ({ s with tasks := rest, dequeueLog := s.dequeueLog ++ [t] },
                Obs.quiet)
    else none
  else
    if wait_not_empty_or_stop s = false then
      some (s, { Obs.quiet with exitLoop := true,
                                calledReduce := s.openAutoExpandReduce })
    else none

/-- Scheduler actions: a submitter's critical section, a worker's loop
iteration, or the destructor setting `stopFlag_ = true`. -/
inductive Act where
  | submit (priority : Int) (timedOut : Bool) (now : Nat)
  | worker (ready : Bool)
  | stop
deriving DecidableEq

/-- One atomic step of the pool. -/
def step (s : PoolState) : Act → Option (PoolState × Obs)
  | Act.submit priority timedOut now => submit_task s priority timedOut now
  | Act.worker ready => process_task_step s ready
  | Act.stop => some ({ s with stopFlag := true }, Obs.quiet)

/-- Step, discarding the observation. -/
def stepS (s : PoolState) (a : Act) : Option PoolState :=
  (step s a).map Prod.fst

/-- Run a sequence of scheduler actions. -/
def runActs (s : PoolState) : List Act → Option PoolState
  | [] => some s
  | a :: rest =>
    match stepS s a with
    | none => none
    | some s1 => runActs s1 rest

/-- A freshly constructed pool: empty queue, `stopFlag_ = false`. -/
def initState (maxTasks : Nat) (autoScale : Bool) : PoolState :=
  ⟨[], false, maxTasks, autoScale, 0, [], []⟩

/-- Number of tasks in `l` whose body is the `packaged_task` with identity
`id`. -/
def countId (id : Nat) (l : List Task) : Nat :=
  l.countP (fun t => decide (t.body = some id))

/-- `hardwareSize` in `ThreadPool::ThreadPool` (`src/src/ThreadPool.cpp`
line 26): `std::thread::hardware_concurrency()`, or 2 when that reports 0. -/
def hardwareSize (hc : Nat) : Nat :=
  if hc = 0 then 2 else hc

/-- Clamping of the requested thread count in `ThreadPool::ThreadPool`
(`src/src/ThreadPool.cpp` lines 26-35). -/
def ThreadPool_init_threads (hc : Nat) (threadsSize : Int) : Int :=
  if threadsSize < 1 then 1
  else if 2 * (hardwareSize hc : Int) < threadsSize then 2 * (hardwareSize hc : Int)
  else threadsSize

/-- The delegating default constructor `ThreadPool::ThreadPool()`
(`src/src/ThreadPool.cpp` lines 48-50): `ThreadPool(1, 100, false, 1000)`. -/
def ThreadPool_default_threads (hc : Nat) : Int :=
  ThreadPool_init_threads hc 1

/-- Queue capacity passed by the default constructor. -/
def ThreadPool_default_maxTasks : Nat := 100

/-- Exactly-once bookkeeping invariant: a `packaged_task` identity not yet
allocated occurs nowhere; an allocated identity occurs at most once between
the queue and the dequeue log; and `run()` is invoked on an identity at most
as often as it is dequeued. -/
def Inv (s : PoolState) : Prop :=
  ∀ id : Nat,
    (s.nextId ≤ id → countId id s.tasks = 0 ∧ countId id s.dequeueLog = 0) ∧
    countId id s.tasks + countId id s.dequeueLog ≤ 1 ∧
    countId id s.execLog ≤ countId id s.dequeueLog

theorem countId_nil (id : Nat) : countId id [] = 0 := rfl

theorem countId_cons (id : Nat) (t : Task) (l : List Task) :
    countId id (t :: l) = countId id l + (if t.body = some id then 1 else 0) := by
  simp [countId, List.countP_cons]

theorem countId_append (id : Nat) (l1 l2 : List Task) :
    countId id (l1 ++ l2) = countId id l1 + countId id l2 := by
  simp [countId, List.countP_append]

theorem popMax_eq_none (l : List Task) (h : popMax l = none) : l = [] := by
  cases l with
  | nil => rfl
  | cons t ts =>
    simp only [popMax] at h
    rcases hp : popMax ts with _ | ⟨m, rest⟩ <;> rw [hp] at h <;> simp at h
    split at h <;> simp at h

theorem popMax_countId (id : Nat) :
    ∀ (l rest : List Task) (t : Task), popMax l = some (t, rest) →
      countId id rest + (if t.body = some id then 1 else 0) = countId id l := by
  intro l
  induction l with
  | nil => intro rest t h; simp [popMax] at h
  | cons a as ih =>
    intro rest t h
    simp only [popMax] at h
    rcases hp : popMax as with _ | ⟨m, mrest⟩
    · rw [hp] at h
      simp at h
      obtain ⟨h1, h2⟩ := h
      subst h1
      subst h2
      have has : as = [] := popMax_eq_none as hp
      subst has
      simp [countId_cons, countId_nil]
    · rw [hp] at h
      simp at h
      split at h
      · simp at h
        obtain ⟨h1, h2⟩ := h
        subst h1
        subst h2
        have := ih mrest m hp
        simp [countId_cons]
        omega
      · simp at h
        obtain ⟨h1, h2⟩ := h
        subst h1
        subst h2
        simp [countId_cons]

theorem pushTask_Inv (s : PoolState) (pri : Int) (now : Nat) (hs : Inv s) :
    Inv (pushTask s pri now) := by
  intro id
  obtain ⟨hfresh, hsum, hexec⟩ := hs id
  have htasks : countId id (pushTask s pri now).tasks =
      countId id s.tasks + (if s.nextId = id then 1 else 0) := by
    simp [pushTask, countId_cons]
  rcases Decidable.em (s.nextId = id) with hid | hid
  · rw [if_pos hid] at htasks
    obtain ⟨hq0, hd0⟩ := hfresh (Nat.le_of_eq hid)
    refine ⟨?_, ?_, hexec⟩
    · intro hle
      have hle2 : s.nextId + 1 ≤ id := hle
      omega
    · show countId id (pushTask s pri now).tasks + countId id s.dequeueLog ≤ 1
      omega
  · rw [if_neg hid] at htasks
    refine ⟨?_, ?_, hexec⟩
    · intro hle
      have hle2 : s.nextId + 1 ≤ id := hle
      obtain ⟨hq0, hd0⟩ := hfresh (by omega)
      show countId id (pushTask s pri now).tasks = 0 ∧ countId id s.dequeueLog = 0
      omega
    · show countId id (pushTask s pri now).tasks + countId id s.dequeueLog ≤ 1
      omega

theorem bumpNextId_Inv (s : PoolState) (hs : Inv s) :
    Inv { s with nextId := s.nextId + 1 } := by
  intro id
  obtain ⟨hfresh, hsum, hexec⟩ := hs id
  refine ⟨?_, hsum, hexec⟩
  intro hle
  have hle2 : s.nextId + 1 ≤ id := hle
  exact hfresh (by omega)

theorem submit_task_Inv (s : PoolState) (pri : Int) (timedOut : Bool) (now : Nat)
    (s1 : PoolState) (o : Obs) (h : submit_task s pri timedOut now = some (s1, o))
    (hs : Inv s) : Inv s1 := by
  simp only [submit_task] at h
  split at h
  · split at h
    · simp at h
      obtain ⟨h1, _⟩ := h
      subst h1
      exact pushTask_Inv s pri now hs
    · simp at h
  · split at h
    · split at h
      · simp at h
        obtain ⟨h1, _⟩ := h
        subst h1
        exact pushTask_Inv s pri now hs
      · simp at h
        obtain ⟨h1, _⟩ := h
        subst h1
        exact bumpNextId_Inv s hs
    · simp at h

theorem popped_Inv (s : PoolState) (t : Task) (rest : List Task)
    (hp : popMax s.tasks = some (t, rest)) (hs : Inv s) (newExec : List Task)
    (hex : newExec = s.execLog ∨ newExec = s.execLog ++ [t]) :
    Inv { s with tasks := rest, dequeueLog := s.dequeueLog ++ [t],
                 execLog := newExec } := by
  intro id
  obtain ⟨hfresh, hsum, hexec⟩ := hs id
  have hc := popMax_countId id s.tasks rest t hp
  have hemax : countId id newExec ≤ countId id s.execLog +
      (if t.body = some id then 1 else 0) := by
    rcases hex with hex | hex <;> rw [hex]
    · omega
    · rw [countId_append, countId_cons, countId_nil]
      omega
  rcases Decidable.em (t.body = some id) with hb | hb
  · rw [if_pos hb] at hc
    rw [if_pos hb] at hemax
    refine ⟨?_, ?_, ?_⟩
    · intro hle
      have hle2 : s.nextId ≤ id := hle
      obtain ⟨hq0, hd0⟩ := hfresh hle2
      show countId id rest = 0 ∧ countId id (s.dequeueLog ++ [t]) = 0
      rw [countId_append, countId_cons, countId_nil, if_pos hb]
      omega
    · show countId id rest + countId id (s.dequeueLog ++ [t]) ≤ 1
      rw [countId_append, countId_cons, countId_nil, if_pos hb]
      omega
    · show countId id newExec ≤ countId id (s.dequeueLog ++ [t])
      rw [countId_append, countId_cons, countId_nil, if_pos hb]
      omega
  · rw [if_neg hb] at hc
    rw [if_neg hb] at hemax
    refine ⟨?_, ?_, ?_⟩
    · intro hle
      have hle2 : s.nextId ≤ id := hle
      obtain ⟨hq0, hd0⟩ := hfresh hle2
      show countId id rest = 0 ∧ countId id (s.dequeueLog ++ [t]) = 0
      rw [countId_append, countId_cons, countId_nil, if_neg hb]
      omega
    · show countId id rest + countId id (s.dequeueLog ++ [t]) ≤ 1
      rw [countId_append, countId_cons, countId_nil, if_neg hb]
      omega
    · show countId id newExec ≤ countId id (s.dequeueLog ++ [t])
      rw [countId_append, countId_cons, countId_nil, if_neg hb]
      omega

theorem process_task_step_Inv (s : PoolState) (ready : Bool)
    (s1 : PoolState) (o : Obs) (h : process_task_step s ready = some (s1, o))
    (hs : Inv s) : Inv s1 := by
  simp only [process_task_step] at h
  rcases ready with _ | _
  · rcases hw : wait_not_empty_or_stop s with _ | _ <;> rw [hw] at h <;> simp at h
    obtain ⟨h1, _⟩ := h
    rw [← h1]
    exact hs
  · rcases hw : wait_not_empty_or_stop s with _ | _ <;> rw [hw] at h <;> simp at h
    rcases hp : popMax s.tasks with _ | ⟨t, rest⟩ <;> rw [hp] at h
    · simp at h
      obtain ⟨h1, _⟩ := h
      rw [← h1]
      exact hs
    · rcases Decidable.em (t.priority = INT_MIN) with hpri | hpri
      · simp [hpri] at h
        obtain ⟨h1, _⟩ := h
        rw [← h1]
        exact popped_Inv s t rest hp hs s.execLog (Or.inl rfl)
      · simp [hpri] at h
        obtain ⟨h1, _⟩ := h
        rw [← h1]
        exact popped_Inv s t rest hp hs (s.execLog ++ [t]) (Or.inr rfl)

theorem step_Inv (s : PoolState) (a : Act) (s1 : PoolState)
    (h : stepS s a = some s1) (hs : Inv s) : Inv s1 := by
  rcases a with ⟨pri, timedOut, now⟩ | ready | _
  · simp only [stepS, step] at h
    rcases hsub : submit_task s pri timedOut now with _ | p <;> rw [hsub] at h <;>
      simp at h
    rw [← h]
    exact submit_task_Inv s pri timedOut now p.1 p.2 hsub hs
  · simp only [stepS, step] at h
    rcases hsub : process_task_step s ready with _ | p <;> rw [hsub] at h <;>
      simp at h
    rw [← h]
    exact process_task_step_Inv s ready p.1 p.2 hsub hs
  · simp only [stepS, step] at h
    simp at h
    rw [← h]
    intro id
    exact hs id

theorem initState_Inv (maxTasks : Nat) (autoScale : Bool) :
    Inv (initState maxTasks autoScale) := by
  intro id
  refine ⟨fun _ => ⟨rfl, rfl⟩, ?_, ?_⟩ <;> simp [initState, countId_nil]

theorem runActs_Inv :
    ∀ (acts : List Act) (s s1 : PoolState), runActs s acts = some s1 → Inv s → Inv s1 := by
  intro acts
  induction acts with
  | nil =>
    intro s s1 h hs
    simp only [runActs] at h
    obtain rfl := Option.some.inj h
    exact hs
  | cons a rest ih =>
    intro s s1 h hs
    simp only [runActs] at h
    rcases hstep : stepS s a with _ | s2 <;> rw [hstep] at h
    · simp at h
    · exact ih s2 s1 h (step_Inv s a s2 hstep hs)

/-!  Claim theorems. -/

/-- C1 (amended claim): in every schedulable interleaving of submissions,
worker iterations and shutdown, each submitted task is dequeued by a worker
at most once and its body is invoked at most once - no duplication; but a
task is not guaranteed to be executed or resolved at all (a sentinel
`INT_MIN` submission is dequeued and dropped without its body ever being
invoked, see the counterexample). -/
theorem C1_dequeued_and_executed_at_most_once (maxTasks : Nat) (autoScale : Bool)
    (acts : List Act) (s : PoolState) (id : Nat)
    (h : runActs (initState maxTasks autoScale) acts = some s) :
    countId id s.dequeueLog ≤ 1 ∧ countId id s.execLog ≤ 1 := by
  have hinv := runActs_Inv acts (initState maxTasks autoScale) s h
    (initState_Inv maxTasks autoScale)
  obtain ⟨_, hsum, hexec⟩ := hinv id
  omega

/-- Witness for C1: a two-step trace (one submission, one worker iteration)
where the lone task is dequeued once and executed once. -/
theorem C1_dequeued_and_executed_at_most_once_w :
    runActs (initState 50 false) [Act.submit 0 false 0, Act.worker true] =
      some ⟨[], false, 50, false, 1, [⟨0, 0, some 0⟩], [⟨0, 0, some 0⟩]⟩ ∧
    (countId 0 ([⟨0, 0, some 0⟩] : List Task) ≤ 1 ∧
      countId 0 ([⟨0, 0, some 0⟩] : List Task) ≤ 1) :=
  ⟨by decide,
   C1_dequeued_and_executed_at_most_once 50 false
     [Act.submit 0 false 0, Act.worker true]
     ⟨[], false, 50, false, 1, [⟨0, 0, some 0⟩], [⟨0, 0, some 0⟩]⟩ 0 (by decide)⟩

/-- C1 (counterexample): a completed run in which a submitted task is lost -
submitting with the sentinel priority `INT_MIN` enqueues the task, the
worker dequeues and drops it without invoking its body, and the run finishes
(stop set, queue drained, worker exited) with the execution log empty: the
callable never ran and the handle was never resolved, refuting "no task is
ever lost" and "each handle resolves exactly once". -/
theorem C1_sentinel_task_never_resolves :
    (runActs (initState 50 false)
        [Act.submit INT_MIN false 0, Act.worker true, Act.stop, Act.worker true]).map
      (fun s => (s.execLog, countId 0 s.dequeueLog, s.tasks)) =
      some ([], 1, []) := by
  decide

/-- C2 (code_bug evaluation): the `Task::operator<` of `src/src/Task.h`
compares a task strictly below itself (two tasks with equal priority and
equal timestamp each precede the other), so it is neither irreflexive nor
asymmetric and is not a strict weak ordering; the variant in
`src/src/ThreadPool.h` is irreflexive at the same input. -/
theorem C2_comparator_not_irreflexive :
    Task.lt ⟨0, 5, none⟩ ⟨0, 5, none⟩ = true ∧
    Task.ltHdr ⟨0, 5, none⟩ ⟨0, 5, none⟩ = false := by
  decide

/-- The trace of C3: a single worker, tasks of priorities 5, 1, 5, 3
submitted in that order with strictly increasing timestamps 0, 1, 2, 3,
then four worker loop iterations. -/
def C3acts : List Act :=
  [Act.submit 5 false 0, Act.submit 1 false 1, Act.submit 5 false 2,
   Act.submit 3 false 3,
   Act.worker true, Act.worker true, Act.worker true, Act.worker true]

/-- C3 (confirmed): with priorities [5, 1, 5, 3] submitted in that order
(timestamps 0, 1, 2, 3) to a single-worker pool, the worker executes them
in priority order 5, 5, 3, 1, and of the two priority-5 tasks the
earlier-submitted one (timestamp 0) runs before the later one
(timestamp 2). -/
theorem C3_priority_order_5_5_3_1 :
    (runActs (initState 100 false) C3acts).map
        (fun s => (s.execLog.map Task.priority, s.execLog.map Task.timestamp)) =
      some ([5, 5, 3, 1], [0, 2, 3, 1]) := by
  decide

/-- C8 (amended claim): the requested thread count is clamped to
`[1, 2 * hardwareSize hc]` where `hardwareSize hc` is the reported hardware
concurrency, or 2 when that reports 0 — inputs below 1 become 1, inputs
above the ceiling become the ceiling, in-range inputs are kept — but the
default-constructed pool delegates to `ThreadPool(1, 100, false, 1000)` and
therefore starts with exactly one worker, not with the hardware
concurrency. -/
theorem C8_ctor_clamp (hc : Nat) (t : Int) :
    1 ≤ ThreadPool_init_threads hc t ∧
    ThreadPool_init_threads hc t ≤ 2 * (hardwareSize hc : Int) ∧
    (t < 1 → ThreadPool_init_threads hc t = 1) ∧
    (2 * (hardwareSize hc : Int) < t →
      ThreadPool_init_threads hc t = 2 * (hardwareSize hc : Int)) ∧
    (1 ≤ t → t ≤ 2 * (hardwareSize hc : Int) → ThreadPool_init_threads hc t = t) ∧
    ThreadPool_default_threads hc = 1 := by
  have hh : 1 ≤ hardwareSize hc := by
    unfold hardwareSize
    split <;> omega
  refine ⟨?_, ?_, ?_, ?_, ?_, ?_⟩ <;>
    ·  simp only [ThreadPool_default_threads, ThreadPool_init_threads]
       split_ifs <;> omega

/-- Witness for C8: concrete clampings for a machine reporting 8 cores. -/
theorem C8_ctor_clamp_w :
    ThreadPool_init_threads 8 0 = 1 ∧
    ThreadPool_init_threads 8 100 = 2 * (hardwareSize 8 : Int) ∧
    ThreadPool_init_threads 8 7 = 7 :=
  ⟨(C8_ctor_clamp 8 0).2.2.1 (by decide),
   (C8_ctor_clamp 8 100).2.2.2.1 (by decide),
   (C8_ctor_clamp 8 7).2.2.2.2.1 (by decide) (by decide)⟩

/-- C8 (counterexample): on a machine reporting 8 hardware threads the
default-constructed pool spawns 1 worker, not 8, refuting the claim that the
default worker count equals the hardware concurrency. -/
theorem C8_default_pool_single_worker :
    ThreadPool_default_threads 8 = 1 ∧ ThreadPool_default_threads 8 ≠ 8 := by
  decide

/-- C4 (counterexample): a submission reaching the decisive point with the
stop flag already true but the queue not full is enqueued normally and no
stopped-pool error is raised - refuting the claim that every submission made
with the stop flag true fails regardless of free capacity. -/
theorem C4_stopped_pool_still_enqueues :
    submit_task ⟨[], true, 50, false, 0, [], []⟩ 0 false 7 =
      some (⟨[⟨0, 7, some 0⟩], true, 50, false, 1, [], []⟩, Obs.quiet) := by
  decide

/-- C4 (amended claim): in `ThreadPool::submit_task` the stopped-pool
runtime_error is thrown exactly when the awaited predicate is satisfied and
the queue is still full (which forces the stop flag to be true); when the
stop flag is true but the queue has free capacity, the task is enqueued and
no error is raised. -/
theorem C4_submit_error_iff_full (s : PoolState) (pri : Int) (now : Nat) :
    (s.stopFlag = true → s.tasks.length < s.maxTasksSize →
      submit_task s pri false now = some (pushTask s pri now, Obs.quiet)) ∧
    (s.maxTasksSize ≤ s.tasks.length →
      ∀ s1 o, submit_task s pri false now = some (s1, o) →
        o.submitError = true ∧ s1.tasks = s.tasks ∧ s.stopFlag = true) := by
  constructor
  · intro hstop hlt
    simp [submit_task, wait_not_full_or_stop, hstop, hlt]
  · intro hge s1 o h
    have hnlt : ¬ (s.tasks.length < s.maxTasksSize) := by omega
    rcases hb : s.stopFlag with _ | _
    · simp [submit_task, wait_not_full_or_stop, hb, hnlt] at h
    · simp [submit_task, wait_not_full_or_stop, hb, hnlt] at h
      obtain ⟨h1, h2⟩ := h
      subst h1
      subst h2
      exact ⟨rfl, rfl, rfl⟩

/-- Witness for C4: the stop-and-space case enqueues; the full case (one
task, capacity one, stop set) raises the stopped-pool error and leaves the
queue unchanged. -/
theorem C4_submit_error_iff_full_w :
    submit_task ⟨[], true, 50, false, 0, [], []⟩ 2 false 7 =
      some (pushTask ⟨[], true, 50, false, 0, [], []⟩ 2 7, Obs.quiet) ∧
    (Obs.submitError ⟨false, false, false, false, true, none⟩ = true ∧
      ([⟨0, 0, some 0⟩] : List Task) = [⟨0, 0, some 0⟩] ∧
      (⟨[⟨0, 0, some 0⟩], true, 1, false, 1, [], []⟩ : PoolState).stopFlag = true) :=
  ⟨(C4_submit_error_iff_full ⟨[], true, 50, false, 0, [], []⟩ 2 7).1 rfl (by decide),
   (C4_submit_error_iff_full ⟨[⟨0, 0, some 0⟩], true, 1, false, 1, [], []⟩ 2 7).2
     (by decide) ⟨[⟨0, 0, some 0⟩], true, 1, false, 2, [], []⟩
     ⟨false, false, false, false, true, none⟩ (by decide)⟩

/-- C5 (counterexample): with the stop flag set and one ordinary task still
queued, the next worker iteration dequeues and executes it - refuting the
claim that once the stop flag is set no worker dequeues any further task and
queued tasks are not executed. -/
theorem C5_queued_task_executed_after_stop :
    (process_task_step ⟨[⟨0, 0, some 0⟩], true, 50, false, 1, [], []⟩ true).map
        (fun p => (p.2.ranTask, p.1.tasks)) =
      some (some ⟨0, 0, some 0⟩, []) := by
  decide

/-- C5 (amended claim): once the stop flag is set a worker can no longer
time out (the wait predicate is identically satisfied), and it keeps
dequeuing and executing the tasks remaining in the queue, exiting its loop
only when the queue is empty; a task already dequeued is allowed to finish.
Tasks resident in the queue at shutdown are therefore executed (their
handles resolve by execution), not failed with a pool-stopped error. -/
theorem C5_stop_drains_queue (s : PoolState) (h : s.stopFlag = true) :
    process_task_step s false = none ∧
    (s.tasks = [] →
      process_task_step s true = some (s, { Obs.quiet with exitLoop := true })) ∧
    (∀ t rest, popMax s.tasks = some (t, rest) → t.priority ≠ INT_MIN →
      process_task_step s true =
        some ({ s with tasks := rest,
                       dequeueLog := s.dequeueLog ++ [t],
                       execLog := s.execLog ++ [t] },
              { Obs.quiet with notifiedNotFull := true, ranTask := some t })) := by
  refine ⟨?_, ?_, ?_⟩
  · simp [process_task_step, wait_not_empty_or_stop, h]
  · intro ht
    simp [process_task_step, wait_not_empty_or_stop, h, ht, popMax]
  · intro t rest hpop hpri
    simp [process_task_step, wait_not_empty_or_stop, h, hpop, hpri]

/-- Witness for C5: concrete stopped states - no timeout step, exit on the
empty queue, and dequeue-plus-execute of a queued task. -/
theorem C5_stop_drains_queue_w :
    process_task_step ⟨[⟨1, 2, some 0⟩], true, 50, false, 1, [], []⟩ false = none ∧
    process_task_step ⟨[], true, 50, false, 0, [], []⟩ true =
      some (⟨[], true, 50, false, 0, [], []⟩, { Obs.quiet with exitLoop := true }) ∧
    process_task_step ⟨[⟨1, 2, some 0⟩], true, 50, false, 1, [], []⟩ true =
      some (⟨[], true, 50, false, 1, [⟨1, 2, some 0⟩], [⟨1, 2, some 0⟩]⟩,
            { Obs.quiet with notifiedNotFull := true, ranTask := some ⟨1, 2, some 0⟩ }) :=
  ⟨(C5_stop_drains_queue ⟨[⟨1, 2, some 0⟩], true, 50, false, 1, [], []⟩ rfl).1,
   (C5_stop_drains_queue ⟨[], true, 50, false, 0, [], []⟩ rfl).2.1 rfl,
   (C5_stop_drains_queue ⟨[⟨1, 2, some 0⟩], true, 50, false, 1, [], []⟩ rfl).2.2
     ⟨1, 2, some 0⟩ [] (by decide) (by decide)⟩

/-- C6 (counterexample): with capacity 2, two queued tasks, and the stop
flag false, a timed-out submission pushes anyway, leaving three tasks in the
queue - the bounded-queue invariant `len(items) <= capacity` is violated and
the wait is not retried. -/
theorem C6_capacity_exceeded_on_timeout :
    (submit_task ⟨[⟨0, 0, some 0⟩, ⟨0, 1, some 1⟩], false, 2, false, 2, [], []⟩
        4 true 9).map (fun p => p.1.tasks.length) = some 3 := by
  decide

/-- C6 (amended claim): the bounded-queue invariant is preserved only by the
wait-satisfied path of `submit_task`; when the wait times out (queue still
full, stop flag false) the code does not retry the wait but pushes the task
immediately - the queue length exceeds the capacity - and then calls
`expand_thread_pool()` exactly when auto-scaling is enabled. -/
theorem C6_capacity_invariant_scope (s : PoolState) (pri : Int) (now : Nat) :
    (∀ s1 o, submit_task s pri false now = some (s1, o) →
      s.tasks.length ≤ s.maxTasksSize → s1.tasks.length ≤ s1.maxTasksSize) ∧
    (∀ s1 o, submit_task s pri true now = some (s1, o) →
      s.maxTasksSize ≤ s.tasks.length ∧ s.stopFlag = false ∧
      s1.tasks.length = s.tasks.length + 1 ∧
      o.calledExpand = s.openAutoExpandReduce) := by
  constructor
  · intro s1 o h hle
    rcases hlt : decide (s.tasks.length < s.maxTasksSize) with _ | _
    · simp only [decide_eq_false_iff_not] at hlt
      rcases hb : s.stopFlag with _ | _
      · simp [submit_task, wait_not_full_or_stop, hb, hlt] at h
      · simp [submit_task, wait_not_full_or_stop, hb, hlt] at h
        obtain ⟨h1, _⟩ := h
        subst h1
        simpa using hle
    · simp only [decide_eq_true_eq] at hlt
      simp [submit_task, wait_not_full_or_stop, hlt] at h
      obtain ⟨h1, _⟩ := h
      subst h1
      simp [pushTask]
      omega
  · intro s1 o h
    rcases hb : s.stopFlag with _ | _
    · rcases hlt : decide (s.tasks.length < s.maxTasksSize) with _ | _
      · simp only [decide_eq_false_iff_not] at hlt
        simp [submit_task, wait_not_full_or_stop, hb, hlt] at h
        obtain ⟨h1, h2⟩ := h
        subst h1
        subst h2
        refine ⟨by omega, rfl, by simp [pushTask], rfl⟩
      · simp only [decide_eq_true_eq] at hlt
        simp [submit_task, wait_not_full_or_stop, hb, hlt] at h
    · simp [submit_task, wait_not_full_or_stop, hb] at h

/-- Witness for C6: a non-timeout push keeps the queue within capacity 2; a
timed-out push on a full capacity-1 queue yields length 2. -/
theorem C6_capacity_invariant_scope_w :
    (pushTask ⟨[], false, 2, false, 0, [], []⟩ 0 3).tasks.length ≤
      (pushTask ⟨[], false, 2, false, 0, [], []⟩ 0 3).maxTasksSize ∧
    (pushTask ⟨[⟨0, 0, some 0⟩], false, 1, true, 1, [], []⟩ 5 9).tasks.length =
      ([⟨0, 0, some 0⟩] : List Task).length + 1 :=
  ⟨(C6_capacity_invariant_scope ⟨[], false, 2, false, 0, [], []⟩ 0 3).1
     (pushTask ⟨[], false, 2, false, 0, [], []⟩ 0 3) Obs.quiet (by decide) (by decide),
   ((C6_capacity_invariant_scope ⟨[⟨0, 0, some 0⟩], false, 1, true, 1, [], []⟩ 5 9).2
     (pushTask ⟨[⟨0, 0, some 0⟩], false, 1, true, 1, [], []⟩ 5 9)
     ⟨false, false, true, false, false, none⟩ (by decide)).2.2.1⟩

/-- C7 (code_bug evaluation): a worker whose wait times out on an empty,
non-stopped queue exits its loop even when auto-scaling is disabled - the
`break` in `ThreadPool::process_task` is unconditional and only the
registry-removal call `reduce_thread_pool` is guarded by the auto-scale
flag. -/
theorem C7_worker_exits_without_autoscale :
    process_task_step ⟨[], false, 50, false, 0, [], []⟩ false =
      some (⟨[], false, 50, false, 0, [], []⟩,
            ⟨true, false, false, false, false, none⟩) ∧
    process_task_step ⟨[], false, 50, true, 0, [], []⟩ false =
      some (⟨[], false, 50, true, 0, [], []⟩,
            ⟨true, true, false, false, false, none⟩) := by
  decide

/-- C9 (confirmed): a task submitted through the priority overload with the
sentinel priority `INT_MIN` is accepted and enqueued like any other (given
queue space), but the worker that dequeues it skips the sentinel: it does
not invoke the body (so the handle never resolves) and does not notify the
not-full condition. -/
theorem C9_sentinel_skipped (s : PoolState) (now : Nat) :
    (s.tasks.length < s.maxTasksSize →
      submit_task s INT_MIN false now = some (pushTask s INT_MIN now, Obs.quiet)) ∧
    (∀ t rest, popMax s.tasks = some (t, rest) → t.priority = INT_MIN →
      process_task_step s true =
        some ({ s with tasks := rest, dequeueLog := s.dequeueLog ++ [t] },
              Obs.quiet)) := by
  constructor
  · intro hlt
    simp [submit_task, wait_not_full_or_stop, hlt]
  · intro t rest hpop hpri
    have hne : ¬ (s.tasks = []) := by
      intro he
      rw [he] at hpop
      simp [popMax] at hpop
    simp [process_task_step, wait_not_empty_or_stop, hpop, hpri, hne]

/-- Witness for C9: submitting priority `INT_MIN` into an empty pool
enqueues it; the worker then dequeues it without running it. -/
theorem C9_sentinel_skipped_w :
    submit_task ⟨[], false, 50, false, 0, [], []⟩ INT_MIN false 4 =
      some (pushTask ⟨[], false, 50, false, 0, [], []⟩ INT_MIN 4, Obs.quiet) ∧
    process_task_step ⟨[⟨INT_MIN, 4, some 0⟩], false, 50, false, 1, [], []⟩ true =
      some (⟨[], false, 50, false, 1, [⟨INT_MIN, 4, some 0⟩], []⟩, Obs.quiet) :=
  ⟨(C9_sentinel_skipped ⟨[], false, 50, false, 0, [], []⟩ 4).1 (by decide),
   (C9_sentinel_skipped ⟨[⟨INT_MIN, 4, some 0⟩], false, 50, false, 1, [], []⟩ 4).2
     ⟨INT_MIN, 4, some 0⟩ [] (by decide) rfl⟩

/-- C10 (confirmed): a default-constructed `Task` carries sentinel priority
`INT_MIN` and a null body; `Task::run` throws exactly when the body is null
and invokes the body exactly when it is non-null. -/
theorem C10_default_task_and_run (now : Nat) (t : Task) :
    (Task.defaultAt now).priority = INT_MIN ∧
    (Task.defaultAt now).body = none ∧
    (t.body = none → Task.run t = Except.error RunError.emptyFunction) ∧
    (∀ f : Nat, t.body = some f → Task.run t = Except.ok f) := by
  refine ⟨rfl, rfl, ?_, ?_⟩
  · intro h
    simp [Task.run, h]
  · intro f h
    simp [Task.run, h]

/-- Witness for C10: a null-bodied task throws, a task with body 3 runs
body 3. -/
theorem C10_default_task_and_run_w :
    Task.run ⟨0, 0, none⟩ = Except.error RunError.emptyFunction ∧
    Task.run ⟨0, 0, some 3⟩ = Except.ok 3 :=
  ⟨(C10_default_task_and_run 0 ⟨0, 0, none⟩).2.2.1 rfl,
   (C10_default_task_and_run 0 ⟨0, 0, some 3⟩).2.2.2 3 rfl⟩

end Wxm
